import Mathlib

/-!
Verification development for the yahoo-fantasy-analyzer repository.

Part 1 embeds the frontend code that is present in the repository:
the axios request interceptor and `apiService.handleCallback`
(frontend/src/services/api.ts), the `Login` component's mount effect
(frontend/src/pages/Login.tsx), and the `DraftAnalyzer` pagination
handlers (frontend/src/pages/DraftAnalyzer.tsx).

Part 2 models the backend token-lifecycle and sync layer
(TokenStore / AuthSession / PaginatedFetcher / SyncOrchestrator),
whose code is not part of the frontend sources; those definitions
are modelled from the specification document.
-/

/- ===== Part 1a: localStorage, handleCallback, request interceptor ===== -/

/-- JavaScript truthiness of a possibly-absent string value
(`null`/`undefined` and the empty string are falsy). -/
def jsTruthy : Option String → Bool
  | none => false
  | some s => !(s == "")

/-- The two localStorage keys the api service reads and writes. -/
structure LocalStore where
  access_token : Option String
  user_id : Option String
deriving DecidableEq

/-- A fresh browser session: no keys stored. -/
def emptyLocalStore : LocalStore := ⟨none, none⟩

/-- Body of the `/auth/callback` response as used by `handleCallback`:
`access_token` may be absent; `user_id` is a number which the code
stringifies with `.toString()`. -/
structure CallbackResponse where
  access_token : Option String
  user_id : Nat
deriving DecidableEq

/-- `apiService.handleCallback`: `if (response.data.access_token)` then store
both `access_token` and `user_id.toString()` in localStorage; otherwise
nothing is written. -/
def handleCallback (resp : CallbackResponse) (store : LocalStore) : LocalStore :=
  if jsTruthy resp.access_token then
    { store with
      access_token := resp.access_token
      user_id := some (Nat.repr resp.user_id) }
  else store

/-- The axios request interceptor: reads both keys; when both are truthy it
sets the Authorization header to the string starting with Bearer followed by
the stored user id (not the access token); otherwise it sets no header. -/
def requestAuthHeader (store : LocalStore) : Option String :=
  let token := store.access_token
  let userId := store.user_id
  if jsTruthy token && jsTruthy userId then
    some ("Bearer " ++ userId.getD "")
  else none

/- ===== Part 1b: Login component mount effect ===== -/

/-- URL query parameters the Login mount effect inspects: whether an
`error` parameter is present and whether a `code` parameter is present. -/
structure CallbackParams where
  hasError : Bool
  hasCode : Bool

/-- Observable state of the Login component across effect runs: the
`callbackProcessed` ref, and how many times an OAuth callback exchange
(`handleCallback` or `handleOAuthError`) has been invoked. -/
structure LoginEffState where
  callbackProcessed : Bool
  exchanges : Nat
deriving DecidableEq

/-- Initial state: `useRef(false)` and no exchange performed yet. -/
def loginEffStart : LoginEffState := ⟨false, 0⟩

/-- One execution of the Login `useEffect` body: return early if
`callbackProcessed.current` is set; otherwise, if an `error` param is present
set the flag and invoke `handleOAuthError`; else if a `code` param is present
set the flag and invoke `handleCallback`; else do nothing. -/
def runLoginEffect (st : LoginEffState) (ps : CallbackParams) : LoginEffState :=
  if st.callbackProcessed then st
  else if ps.hasError then { callbackProcessed := true, exchanges := st.exchanges + 1 }
  else if ps.hasCode then { callbackProcessed := true, exchanges := st.exchanges + 1 }
  else st

/-- A whole sequence of mount-effect executions, from the initial state. -/
def runLoginEffects (runs : List CallbackParams) : LoginEffState :=
  runs.foldl runLoginEffect loginEffStart

/- ===== Part 1c: DraftAnalyzer pagination ===== -/

/-- The only field of the draft analysis response the pagination handlers
consult; absent in the response when the backend omits it. -/
structure DraftAnalysisData where
  total_pages : Option Nat

/-- JavaScript `x || d` on a possibly-absent number: `undefined` and `0`
are falsy, so both fall back to the default. -/
def jsOrNat : Option Nat → Nat → Nat
  | none, d => d
  | some n, d => if n = 0 then d else n

/-- `handlePrevPage`: `if (currentPage > 1) setCurrentPage(currentPage - 1)`. -/
def handlePrevPage (p : Nat) : Nat :=
  if 1 < p then p - 1 else p

/-- `handleNextPage`: `if (analysis && currentPage < (analysis.total_pages || 1))
setCurrentPage(currentPage + 1)`. -/
def handleNextPage (analysis : Option DraftAnalysisData) (p : Nat) : Nat :=
  match analysis with
  | none => p
  | some a => if p < jsOrNat a.total_pages 1 then p + 1 else p

/-- The effective page bound the component uses: `analysis.total_pages || 1`,
and 1 when there is no analysis at all. -/
def effTotalPages : Option DraftAnalysisData → Nat
  | none => 1
  | some a => jsOrNat a.total_pages 1

/-- A click on one of the two pagination buttons. -/
inductive PageOp
  | prev
  | next

/-- One pagination click applied to the current page. -/
def pageStep (analysis : Option DraftAnalysisData) (p : Nat) : PageOp → Nat
  | PageOp.prev => handlePrevPage p
  | PageOp.next => handleNextPage analysis p

/-- Run a sequence of pagination clicks starting from `currentPage = 1`. -/
def runPageOps (analysis : Option DraftAnalysisData) (ops : List PageOp) : Nat :=
  ops.foldl (pageStep analysis) 1

/- ===== Part 2a: TokenStore and AuthSession (token lifecycle) ===== -/

/-- Modelled from the spec: the Credential record owned by TokenStore
(the backend AuthSession/TokenStore code is not among the repository
sources; this follows section 3 of the specification). -/
structure Credential where
  access_token : String
  refresh_token : String
  expires_at : Nat
  scope : String
deriving DecidableEq

/-- Modelled from the spec: errors of the token lifecycle relevant to
`getValidToken` (section 7 taxonomy). -/
inductive TokenError
  | notFound
  | reauthRequired
deriving DecidableEq

/-- Modelled from the spec: TokenStore contents, keyed by user_id. -/
def TokenStore : Type := String → Option Credential

/-- Modelled from the spec: `TokenStore.save`, a durable keyed write. -/
def saveCred (store : TokenStore) (uid : String) (c : Credential) : TokenStore :=
  fun k => if k = uid then some c else store k

/-- Modelled from the spec: the upstream token endpoint exchanging a
refresh_token; `some (access, refresh, expires_at)` on success, `none`
when the refresh token is rejected. -/
def RefreshEndpoint : Type := String → Option (String × String × Nat)

/-- Result of a `getValidToken` call: the outcome, the number of refresh
calls made against the upstream token endpoint, and the TokenStore
contents after the call. -/
structure TokenResult where
  outcome : Except TokenError String
  refreshCalls : Nat
  store : TokenStore

/-- Modelled from the spec: `getValidToken(user_id)` reads the Credential;
if `now >= expires_at - skew` it performs one refresh (exchanging the
refresh_token), persists the update via TokenStore, and returns the new
access token; a rejected refresh token fails with ReauthRequired and
leaves the store untouched; otherwise the stored token is returned. -/
def getValidToken (refresh : RefreshEndpoint) (store : TokenStore) (uid : String)
    (now skew : Nat) : TokenResult :=
  match store uid with
  | none => ⟨Except.error TokenError.notFound, 0, store⟩
  | some cred =>
    if now < cred.expires_at - skew then
      ⟨Except.ok cred.access_token, 0, store⟩
    else
      match refresh cred.refresh_token with
      | some (a, r, e) =>
        ⟨Except.ok a, 1,
          saveCred store uid { cred with access_token := a, refresh_token := r, expires_at := e }⟩
      | none => ⟨Except.error TokenError.reauthRequired, 1, store⟩

/- ===== Part 2b: PaginatedFetcher ===== -/

/-- A page of upstream items together with the continuation flag. -/
structure Page where
  items : List Nat
  hasMore : Bool
deriving DecidableEq

/-- Modelled from the spec: the upstream paginated endpoint, mapping the
`(start, count)` query parameters to the returned page. -/
def Upstream : Type := Nat → Nat → Page

/-- Modelled from the spec: the pagination loop of
`PaginatedFetcher.fetchAll`, recorded as a trace of `(offset, page)`
requests: request `(start=offset, count=batchSize)`; stop on an empty
page; yield the page; if `has_more` continue at `offset + #items`,
otherwise stop.  Iteration is bounded by the fuel argument, which
`fetchAll` sets to the maximum item count. -/
def fetchTrace (u : Upstream) (batchSize : Nat) : Nat → Nat → List (Nat × Page)
  | _, 0 => []
  | offset, fuel + 1 =>
    let p := u offset batchSize
    if p.items.length = 0 then []
    else if p.hasMore then
      (offset, p) :: fetchTrace u batchSize (offset + p.items.length) fuel
    else [(offset, p)]

/-- Modelled from the spec: `fetchAll(endpoint, batch_size)` with its
maximum item count bound; the sequence of pages produced. -/
def fetchAll (u : Upstream) (batchSize maxItems : Nat) : List Page :=
  (fetchTrace u batchSize 0 maxItems).map Prod.snd

/-- The requested start offsets of a trace. -/
def traceOffsets (t : List (Nat × Page)) : List Nat :=
  t.map Prod.fst

/-- The offsets of a trace form a chain starting at `o` in which each
offset advances by the number of items actually returned on the
previous page. -/
def offsetChain : Nat → List (Nat × Page) → Prop
  | _, [] => True
  | o, x :: xs => x.1 = o ∧ offsetChain (o + x.2.items.length) xs

/-- The concrete three-page upstream of the specification scenario:
pages of 100, 100 and 42 items with has_more true, true, false. -/
def upstreamScenario : Upstream := fun start _ =>
  if start = 0 then ⟨List.replicate 100 0, true⟩
  else if start = 100 then ⟨List.replicate 100 1, true⟩
  else if start = 200 then ⟨List.replicate 42 2, false⟩
  else ⟨[], false⟩

/-- A malformed upstream that always reports `has_more = true`. -/
def upstreamAlwaysMore : Upstream := fun _ _ => ⟨[0], true⟩

/- ===== Part 2c: PaginatedFetcher rate-limit handling ===== -/

/-- Modelled from the spec: one upstream HTTP response: either a 429-style
throttling signal or a successful page. -/
inductive UpstreamResp
  | throttled
  | ok (p : Page)
deriving DecidableEq

/-- Modelled from the spec: the upstream endpoint seen per request attempt:
for given `(start, count)` query parameters, the response may differ from
one retry attempt to the next. -/
def RetryUpstream : Type := Nat → Nat → Nat → UpstreamResp

/-- Modelled from the spec: errors of the fetch layer relevant here. -/
inductive FetchError
  | rateLimitExceeded
deriving DecidableEq

/-- Modelled from the spec: exponential backoff with doubling base delay,
capped at `cap`. -/
def backoffDelay (base cap attempt : Nat) : Nat :=
  min (base * 2 ^ attempt) cap

/-- Modelled from the spec: the retry loop for a single page; on a
throttling response wait the backoff delay for the current attempt and
retry the same page; the fuel is the number of attempts still allowed.
Returns the page and the total backoff waited, or RateLimitExceeded once
the retry cap is exhausted. -/
def fetchPageRetry (resp : Nat → UpstreamResp) (base cap : Nat) :
    Nat → Nat → Nat → Except FetchError (Page × Nat)
  | 0, _, _ => Except.error FetchError.rateLimitExceeded
  | fuel + 1, attempt, elapsed =>
    match resp attempt with
    | UpstreamResp.ok p => Except.ok (p, elapsed)
    | UpstreamResp.throttled =>
      fetchPageRetry resp base cap fuel (attempt + 1) (elapsed + backoffDelay base cap attempt)

/-- Modelled from the spec: fetch one page with up to `maxRetries`
retries after the initial attempt. -/
def fetchPage (resp : Nat → UpstreamResp) (maxRetries base cap : Nat) :
    Except FetchError (Page × Nat) :=
  fetchPageRetry resp base cap (maxRetries + 1) 0 0

/-- Modelled from the spec: the paginated fetch loop with rate-limit
retries; on a page-level failure the pages already fetched remain in the
first component and the error is reported alongside them. -/
def fetchAllRetry (u : RetryUpstream) (batchSize maxRetries base cap : Nat) :
    Nat → Nat → List Page × Option FetchError
  | _, 0 => ([], none)
  | offset, fuel + 1 =>
    match fetchPage (fun a => u offset batchSize a) maxRetries base cap with
    | Except.error e => ([], some e)
    | Except.ok (p, _) =>
      if p.items.length = 0 then ([], none)
      else if p.hasMore then
        let rest := fetchAllRetry u batchSize maxRetries base cap (offset + p.items.length) fuel
        (p :: rest.1, rest.2)
      else ([p], none)

/-- The 429-twice-then-200 response sequence of the specification
scenario, for a fixed page. -/
def throttleTwiceResp (p : Page) : Nat → UpstreamResp := fun attempt =>
  if attempt < 2 then UpstreamResp.throttled else UpstreamResp.ok p

/-- An upstream whose first page (offset 0) succeeds immediately with 100
items and `has_more = true`, and whose second page (offset 100) is
throttled on every attempt. -/
def upstreamSecondPageThrottled : RetryUpstream := fun start _ _ =>
  if start = 0 then UpstreamResp.ok ⟨List.replicate 100 0, true⟩
  else UpstreamResp.throttled

/- ===== Part 2d: SyncOrchestrator ===== -/

/-- Modelled from the spec: a persisted entity row: the internal
identifier assigned at insertion time and the mutable fields. -/
structure EntityRow where
  internalId : Nat
  fields : String
deriving DecidableEq

/-- Modelled from the spec: one entity table, keyed by the upstream
natural key, together with its row count and the next internal id. -/
structure EntityTable where
  rows : String → Option EntityRow
  rowCount : Nat
  nextId : Nat

/-- Modelled from the spec: one item of an upstream collection: natural
key plus mutable fields. -/
structure UpstreamItem where
  key : String
  fields : String
deriving DecidableEq

/-- Modelled from the spec: upsert by natural key: insert with a fresh
internal id if the key is unseen, else overwrite the mutable fields while
preserving the internal identifier. -/
def upsert (t : EntityTable) (it : UpstreamItem) : EntityTable :=
  match t.rows it.key with
  | some e =>
    { t with rows := fun k => if k = it.key then some ⟨e.internalId, it.fields⟩ else t.rows k }
  | none =>
    { rows := fun k => if k = it.key then some ⟨t.nextId, it.fields⟩ else t.rows k
      rowCount := t.rowCount + 1
      nextId := t.nextId + 1 }

/-- Modelled from the spec: persist one fetched collection by upserting
every item in order. -/
def syncItems (t : EntityTable) (items : List UpstreamItem) : EntityTable :=
  items.foldl upsert t

/-- Modelled from the spec: the stored League data touched by
`syncLeague`: one table per entity type. -/
structure LeagueStore where
  teams : EntityTable
  players : EntityTable
  draftPicks : EntityTable

/-- Modelled from the spec: the collections fetched from the upstream for
one league. -/
structure LeagueData where
  teams : List UpstreamItem
  players : List UpstreamItem
  picks : List UpstreamItem

/-- Modelled from the spec: `syncLeague` persists each fetched collection
into its own table. -/
def syncLeague (s : LeagueStore) (d : LeagueData) : LeagueStore :=
  ⟨syncItems s.teams d.teams, syncItems s.players d.players, syncItems s.draftPicks d.picks⟩

/-- Modelled from the spec: outcome of fetching one entity type: either
the fetched items or an error message. -/
def FetchOutcome : Type := Except String (List UpstreamItem)

/-- Modelled from the spec: per-entity-type result reported by
`syncLeague`: the upserted item count on success, the error otherwise. -/
structure SyncResult where
  teamsOutcome : Except String Nat
  playersOutcome : Except String Nat
  picksOutcome : Except String Nat

/-- Modelled from the spec: sync one entity type: a fetch failure leaves
the table untouched and reports the error; a success upserts the items
and reports the count. -/
def syncOne (t : EntityTable) (f : FetchOutcome) : EntityTable × Except String Nat :=
  match f with
  | Except.error e => (t, Except.error e)
  | Except.ok items => (syncItems t items, Except.ok items.length)

/-- Modelled from the spec: `syncLeague` with per-entity-type fetch
outcomes: each entity type is synced independently and the SyncResult
reports every entity type's status and count. -/
def syncLeagueR (s : LeagueStore) (ft fp fd : FetchOutcome) : LeagueStore × SyncResult :=
  let team := syncOne s.teams ft
  let player := syncOne s.players fp
  let draft := syncOne s.draftPicks fd
  (⟨team.1, player.1, draft.1⟩, ⟨team.2, player.2, draft.2⟩)

/- ===== Helper lemmas ===== -/

theorem toDigitsCore_length (b : Nat) : ∀ (fuel n : Nat) (ds : List Char),
    ds.length ≤ (Nat.toDigitsCore b fuel n ds).length := by
  intro fuel
  induction fuel with
  | zero => intro n ds; simp [Nat.toDigitsCore]
  | succ f ih =>
    intro n ds
    rw [Nat.toDigitsCore]
    by_cases h : n / b = 0
    · simp [h]
    · simp only [if_neg h]
      calc ds.length ≤ ds.length + 1 := Nat.le_succ _
        _ = ((n % b).digitChar :: ds).length := by simp
        _ ≤ _ := ih _ _

theorem natRepr_ne_empty (n : Nat) : Nat.repr n ≠ "" := by
  unfold Nat.repr
  intro h
  have h2 : Nat.toDigits 10 n = [] := by
    have h3 := congrArg String.toList h
    simpa [List.asString] using h3
  unfold Nat.toDigits at h2
  rw [Nat.toDigitsCore] at h2
  by_cases hz : n / 10 = 0
  · simp [hz] at h2
  · simp only [if_neg hz] at h2
    have h4 := toDigitsCore_length 10 n (n / 10) [(n % 10).digitChar]
    rw [h2] at h4
    simp at h4

/- ===== Claim C8 ===== -/

/-- Claim C8: after `handleCallback` stores a callback response carrying an
access token, every later request's Authorization header is the Bearer
value built from the stored user id (not from the access token); a
callback response without an access_token field writes nothing to
localStorage, and starting from a fresh localStorage the Authorization
header then stays absent. -/
theorem handleCallback_authHeader (store : LocalStore) (resp : CallbackResponse) :
    (jsTruthy resp.access_token = true →
      requestAuthHeader (handleCallback resp store) =
        some ("Bearer " ++ Nat.repr resp.user_id)) ∧
    (resp.access_token = none → handleCallback resp store = store) ∧
    (resp.access_token = none →
      requestAuthHeader (handleCallback resp emptyLocalStore) = none) := by
  refine ⟨?_, ?_, ?_⟩
  · intro h
    have hne : (Nat.repr resp.user_id == "") = false :=
      beq_eq_false_iff_ne.mpr (natRepr_ne_empty resp.user_id)
    cases ht : resp.access_token with
    | none => rw [ht] at h; simp [jsTruthy] at h
    | some s =>
      have hs : (s == "") = false := by
        rw [ht] at h; simpa [jsTruthy] using h
      simp [handleCallback, requestAuthHeader, jsTruthy, ht, hs, hne]
  · intro h
    simp [handleCallback, h, jsTruthy]
  · intro h
    simp [handleCallback, h, jsTruthy, requestAuthHeader, emptyLocalStore]

theorem handleCallback_authHeader_witness :
    requestAuthHeader (handleCallback ⟨some "tok", 7⟩ emptyLocalStore) =
      some ("Bearer " ++ Nat.repr 7) :=
  (handleCallback_authHeader emptyLocalStore ⟨some "tok", 7⟩).1 (by decide)

/- ===== Claim C9 ===== -/

theorem loginEffect_fold_bound (runs : List CallbackParams) :
    ∀ st : LoginEffState, (st.callbackProcessed = false → st.exchanges = 0) →
      st.exchanges ≤ 1 → (runs.foldl runLoginEffect st).exchanges ≤ 1 := by
  induction runs with
  | nil => intro st _ h2; simpa using h2
  | cons r rs ih =>
    intro st h1 h2
    simp only [List.foldl_cons]
    by_cases hp : st.callbackProcessed
    · have hst : runLoginEffect st r = st := by simp [runLoginEffect, hp]
      rw [hst]; exact ih st h1 h2
    · have hz : st.exchanges = 0 := h1 (by simpa using hp)
      by_cases he : r.hasError
      · have hst : runLoginEffect st r = ⟨true, st.exchanges + 1⟩ := by
          simp [runLoginEffect, hp, he]
        rw [hst]
        exact ih _ (fun hc => by simp at hc) (by simp [hz])
      · by_cases hc : r.hasCode
        · have hst : runLoginEffect st r = ⟨true, st.exchanges + 1⟩ := by
            simp [runLoginEffect, hp, he, hc]
          rw [hst]
          exact ih _ (fun hcc => by simp at hcc) (by simp [hz])
        · have hst : runLoginEffect st r = st := by simp [runLoginEffect, hp, he, hc]
          rw [hst]; exact ih st h1 h2

/-- Claim C9: across any sequence of Login mount-effect executions, the
OAuth callback exchange (handleCallback or handleOAuthError) is invoked
at most once; moreover once the callbackProcessed flag is set, an effect
run leaves the state untouched, so no later run triggers a second
exchange. -/
theorem loginEffect_at_most_one_exchange (runs : List CallbackParams) :
    (runLoginEffects runs).exchanges ≤ 1 ∧
    (∀ (st : LoginEffState) (ps : CallbackParams),
      st.callbackProcessed = true → runLoginEffect st ps = st) := by
  constructor
  · exact loginEffect_fold_bound runs loginEffStart (fun _ => rfl) (by simp [loginEffStart])
  · intro st ps h
    simp [runLoginEffect, h]

theorem loginEffect_at_most_one_exchange_witness :
    (runLoginEffects [⟨false, true⟩, ⟨false, true⟩, ⟨true, false⟩]).exchanges ≤ 1 ∧
      runLoginEffect ⟨true, 1⟩ ⟨false, true⟩ = ⟨true, 1⟩ :=
  ⟨(loginEffect_at_most_one_exchange [⟨false, true⟩, ⟨false, true⟩, ⟨true, false⟩]).1,
   (loginEffect_at_most_one_exchange []).2 ⟨true, 1⟩ ⟨false, true⟩ rfl⟩

/- ===== Claim C10 ===== -/

theorem effTotalPages_pos (a : Option DraftAnalysisData) : 1 ≤ effTotalPages a := by
  cases a with
  | none => simp [effTotalPages]
  | some a =>
    cases h : a.total_pages with
    | none => simp [effTotalPages, jsOrNat, h]
    | some n =>
      by_cases hn : n = 0
      · simp [effTotalPages, jsOrNat, h, hn]
      · simp only [effTotalPages, jsOrNat, h, if_neg hn]
        omega

theorem pageStep_bounds (a : Option DraftAnalysisData) (op : PageOp) (p : Nat)
    (h1 : 1 ≤ p) (h2 : p ≤ effTotalPages a) :
    1 ≤ pageStep a p op ∧ pageStep a p op ≤ effTotalPages a := by
  cases op with
  | prev =>
    simp only [pageStep, handlePrevPage]
    by_cases hp : 1 < p
    · constructor <;> simp [hp] <;> omega
    · simp [hp]; omega
  | next =>
    cases a with
    | none => simpa [pageStep, handleNextPage] using And.intro h1 h2
    | some d =>
      simp only [pageStep, handleNextPage]
      by_cases hlt : p < jsOrNat d.total_pages 1
      · have hb : jsOrNat d.total_pages 1 = effTotalPages (some d) := rfl
        rw [if_pos hlt]
        constructor
        · omega
        · rw [← hb] at h2 ⊢; omega
      · rw [if_neg hlt]; exact ⟨h1, h2⟩

theorem runPageOps_fold_bounds (a : Option DraftAnalysisData) (ops : List PageOp) :
    ∀ p : Nat, 1 ≤ p → p ≤ effTotalPages a →
      1 ≤ ops.foldl (pageStep a) p ∧ ops.foldl (pageStep a) p ≤ effTotalPages a := by
  induction ops with
  | nil => intro p h1 h2; simpa using And.intro h1 h2
  | cons op rest ih =>
    intro p h1 h2
    simp only [List.foldl_cons]
    obtain ⟨g1, g2⟩ := pageStep_bounds a op p h1 h2
    exact ih _ g1 g2

/-- Claim C10: handlePrevPage leaves page 1 unchanged and otherwise
decrements by one; handleNextPage leaves the page unchanged at or beyond
the effective total page count (`total_pages || 1`, bound 1 when the
analysis is absent) and otherwise increments by one; hence every page
reachable from page 1 stays between 1 and the effective total page
count. -/
theorem draftAnalyzer_page_bounds :
    (∀ p : Nat, 1 ≤ p → handlePrevPage p = if p = 1 then p else p - 1) ∧
    (∀ (a : Option DraftAnalysisData) (p : Nat),
      effTotalPages a ≤ p → handleNextPage a p = p) ∧
    (∀ (a : Option DraftAnalysisData) (p : Nat),
      1 ≤ p → p < effTotalPages a → handleNextPage a p = p + 1) ∧
    (∀ (a : Option DraftAnalysisData) (ops : List PageOp),
      1 ≤ runPageOps a ops ∧ runPageOps a ops ≤ effTotalPages a) := by
  refine ⟨?_, ?_, ?_, ?_⟩
  · intro p h1
    by_cases hp : p = 1
    · simp [handlePrevPage, hp]
    · have : 1 < p := by omega
      simp [handlePrevPage, this, hp]
  · intro a p h
    cases a with
    | none => simp [handleNextPage]
    | some d =>
      have : ¬ p < jsOrNat d.total_pages 1 := by
        have hb : jsOrNat d.total_pages 1 = effTotalPages (some d) := rfl
        omega
      simp [handleNextPage, this]
  · intro a p h1 h2
    cases a with
    | none =>
      exfalso
      have := effTotalPages_pos (none : Option DraftAnalysisData)
      simp [effTotalPages] at h2
      omega
    | some d =>
      have hlt : p < jsOrNat d.total_pages 1 := h2
      simp [handleNextPage, hlt]
  · intro a ops
    exact runPageOps_fold_bounds a ops 1 le_rfl (effTotalPages_pos a)

theorem draftAnalyzer_page_bounds_witness :
    handlePrevPage 1 = 1 ∧ handlePrevPage 3 = 2 ∧
      handleNextPage (some ⟨some 5⟩) 5 = 5 ∧
      handleNextPage (some ⟨some 5⟩) 2 = 3 ∧
      (1 ≤ runPageOps (some ⟨some 5⟩) [PageOp.next, PageOp.next, PageOp.prev] ∧
        runPageOps (some ⟨some 5⟩) [PageOp.next, PageOp.next, PageOp.prev] ≤
          effTotalPages (some ⟨some 5⟩)) :=
  ⟨by simpa using draftAnalyzer_page_bounds.1 1 (by decide),
   by simpa using draftAnalyzer_page_bounds.1 3 (by decide),
   draftAnalyzer_page_bounds.2.1 (some ⟨some 5⟩) 5 (by decide),
   draftAnalyzer_page_bounds.2.2.1 (some ⟨some 5⟩) 2 (by decide) (by decide),
   draftAnalyzer_page_bounds.2.2.2 (some ⟨some 5⟩) [PageOp.next, PageOp.next, PageOp.prev]⟩

/- ===== Claim C2 ===== -/

/-- Claim C2: for a stored Credential, getValidToken returns the stored
access token unchanged while `now < expires_at - skew`; once
`now >= expires_at - skew` it performs exactly one refresh exchanging the
refresh_token, persists the updated Credential and returns the new access
token; in particular with `now` at or past `expires_at` exactly one
refresh call is made before returning. -/
theorem getValidToken_refresh_behavior
    (refresh : RefreshEndpoint) (store : TokenStore) (uid : String)
    (now skew : Nat) (cred : Credential) (hc : store uid = some cred) :
    (now < cred.expires_at - skew →
      getValidToken refresh store uid now skew =
        ⟨Except.ok cred.access_token, 0, store⟩) ∧
    (∀ a r e, cred.expires_at - skew ≤ now →
      refresh cred.refresh_token = some (a, r, e) →
      getValidToken refresh store uid now skew =
        ⟨Except.ok a, 1,
          saveCred store uid
            { cred with access_token := a, refresh_token := r, expires_at := e }⟩) ∧
    (cred.expires_at ≤ now →
      (getValidToken refresh store uid now skew).refreshCalls = 1) := by
  refine ⟨?_, ?_, ?_⟩
  · intro h
    simp [getValidToken, hc, h]
  · intro a r e h hr
    have hnot : ¬ now < cred.expires_at - skew := by omega
    simp [getValidToken, hc, hnot, hr]
  · intro h
    have hnot : ¬ now < cred.expires_at - skew := by omega
    cases hr : refresh cred.refresh_token with
    | none => simp [getValidToken, hc, hnot, hr]
    | some t =>
      obtain ⟨a, r, e⟩ := t
      simp [getValidToken, hc, hnot, hr]

theorem getValidToken_refresh_behavior_witness :
    getValidToken (fun t => if t = "rt" then some ("new", "rt2", 200) else none)
        (fun k => if k = "u" then some ⟨"old", "rt", 100, "sc"⟩ else none) "u" 150 5 =
      ⟨Except.ok "new", 1,
        saveCred (fun k => if k = "u" then some ⟨"old", "rt", 100, "sc"⟩ else none) "u"
          ⟨"new", "rt2", 200, "sc"⟩⟩ :=
  (getValidToken_refresh_behavior
      (fun t => if t = "rt" then some ("new", "rt2", 200) else none)
      (fun k => if k = "u" then some ⟨"old", "rt", 100, "sc"⟩ else none)
      "u" 150 5 ⟨"old", "rt", 100, "sc"⟩ (by decide)).2.1
    "new" "rt2" 200 (by decide) (by decide)

/- ===== Claim C4 ===== -/

/-- Claim C4: when the upstream token endpoint rejects the refresh token,
getValidToken fails with ReauthRequired and the TokenStore contents after
the call are exactly what they were before: the stored Credential is
neither cleared nor modified. -/
theorem getValidToken_reauthRequired
    (refresh : RefreshEndpoint) (store : TokenStore) (uid : String)
    (now skew : Nat) (cred : Credential)
    (hc : store uid = some cred)
    (hexp : cred.expires_at - skew ≤ now)
    (hr : refresh cred.refresh_token = none) :
    getValidToken refresh store uid now skew =
      ⟨Except.error TokenError.reauthRequired, 1, store⟩ := by
  have hnot : ¬ now < cred.expires_at - skew := by omega
  simp [getValidToken, hc, hnot, hr]

theorem getValidToken_reauthRequired_witness :
    getValidToken (fun _ => none)
        (fun k => if k = "u" then some ⟨"old", "rt", 100, "sc"⟩ else none) "u" 150 5 =
      ⟨Except.error TokenError.reauthRequired, 1,
        fun k => if k = "u" then some ⟨"old", "rt", 100, "sc"⟩ else none⟩ :=
  getValidToken_reauthRequired (fun _ => none)
    (fun k => if k = "u" then some ⟨"old", "rt", 100, "sc"⟩ else none)
    "u" 150 5 ⟨"old", "rt", 100, "sc"⟩ (by decide) (by decide) rfl

/- ===== Claim C1 ===== -/

theorem fetchTrace_chain (u : Upstream) (batchSize : Nat) :
    ∀ (fuel offset : Nat), offsetChain offset (fetchTrace u batchSize offset fuel) := by
  intro fuel
  induction fuel with
  | zero => intro offset; simp [fetchTrace, offsetChain]
  | succ f ih =>
    intro offset
    by_cases h0 : (u offset batchSize).items.length = 0
    · simp [fetchTrace, h0, offsetChain]
    · by_cases hm : (u offset batchSize).hasMore
      · simp only [fetchTrace, if_neg h0, hm, if_true, offsetChain]
        exact ⟨by trivial, ih _⟩
      · simp [fetchTrace, h0, hm, offsetChain]

theorem fetchTrace_stop_empty (u : Upstream) (batchSize fuel offset : Nat)
    (h : (u offset batchSize).items.length = 0) :
    fetchTrace u batchSize offset fuel = [] := by
  cases fuel with
  | zero => rfl
  | succ f => simp [fetchTrace, h]

theorem fetchTrace_stop_noMore (u : Upstream) (batchSize fuel offset : Nat)
    (h : (u offset batchSize).hasMore = false) :
    (fetchTrace u batchSize offset fuel).length ≤ 1 := by
  cases fuel with
  | zero => simp [fetchTrace]
  | succ f =>
    by_cases h0 : (u offset batchSize).items.length = 0
    · simp [fetchTrace, h0]
    · simp [fetchTrace, h0, h]

/-- Claim C1: the fetch loop requests pages at `(start=offset,
count=batch_size)` with the offset advancing by the number of items
actually returned (the requested offsets form the corresponding chain);
it stops on an empty page and yields no further page once `has_more` is
false; in the 100/100/42 scenario it yields exactly 3 pages totaling 242
items, with offsets 0, 100, 200. -/
theorem fetchAll_pagination :
    (∀ (u : Upstream) (batchSize fuel offset : Nat),
      offsetChain offset (fetchTrace u batchSize offset fuel)) ∧
    (∀ (u : Upstream) (batchSize fuel offset : Nat),
      (u offset batchSize).items.length = 0 →
      fetchTrace u batchSize offset fuel = []) ∧
    (∀ (u : Upstream) (batchSize fuel offset : Nat),
      (u offset batchSize).hasMore = false →
      (fetchTrace u batchSize offset fuel).length ≤ 1) ∧
    (traceOffsets (fetchTrace upstreamScenario 100 0 242) = [0, 100, 200] ∧
      (fetchAll upstreamScenario 100 242).length = 3 ∧
      ((fetchAll upstreamScenario 100 242).map (fun p => p.items.length)).sum = 242) := by
  refine ⟨fetchTrace_chain, fetchTrace_stop_empty, fetchTrace_stop_noMore, ?_, ?_, ?_⟩
  · decide
  · decide
  · decide

theorem fetchAll_pagination_witness :
    offsetChain 0 (fetchTrace upstreamScenario 100 0 242) ∧
      fetchTrace (fun _ _ => (⟨[], true⟩ : Page)) 25 0 10 = [] ∧
      (fetchTrace (fun _ _ => (⟨[3], false⟩ : Page)) 25 0 10).length ≤ 1 :=
  ⟨fetchAll_pagination.1 upstreamScenario 100 242 0,
   fetchAll_pagination.2.1 (fun _ _ => (⟨[], true⟩ : Page)) 25 10 0 (by decide),
   fetchAll_pagination.2.2.1 (fun _ _ => (⟨[3], false⟩ : Page)) 25 10 0 (by decide)⟩

/- ===== Claim C5 ===== -/

theorem fetchTrace_length_le (u : Upstream) (batchSize : Nat) :
    ∀ (fuel offset : Nat), (fetchTrace u batchSize offset fuel).length ≤ fuel := by
  intro fuel
  induction fuel with
  | zero => intro offset; simp [fetchTrace]
  | succ f ih =>
    intro offset
    by_cases h0 : (u offset batchSize).items.length = 0
    · simp [fetchTrace, h0]
    · by_cases hm : (u offset batchSize).hasMore
      · simp only [fetchTrace, if_neg h0, hm, if_true, List.length_cons]
        exact Nat.succ_le_succ (ih _)
      · simp [fetchTrace, h0, hm]

/-- Claim C5: fetchAll always terminates with a finite page sequence
whose length is bounded by the maximum item count, even against a
malformed upstream that always reports `has_more = true`; it never loops
forever. -/
theorem fetchAll_terminates :
    (∀ (u : Upstream) (batchSize maxItems : Nat),
      (fetchAll u batchSize maxItems).length ≤ maxItems) ∧
    (fetchAll upstreamAlwaysMore 25 5).length = 5 := by
  constructor
  · intro u batchSize maxItems
    simpa [fetchAll] using fetchTrace_length_le u batchSize maxItems 0
  · decide

/- ===== Claim C6 ===== -/

theorem fetchPageRetry_throttled (resp : Nat → UpstreamResp) (base cap : Nat)
    (h : ∀ a, resp a = UpstreamResp.throttled) :
    ∀ (fuel attempt elapsed : Nat),
      fetchPageRetry resp base cap fuel attempt elapsed =
        Except.error FetchError.rateLimitExceeded := by
  intro fuel
  induction fuel with
  | zero => intro attempt elapsed; rfl
  | succ f ih =>
    intro attempt elapsed
    simp [fetchPageRetry, h attempt, ih]

theorem fetchPage_throttleTwice (p : Page) (base cap : Nat) :
    fetchPage (throttleTwiceResp p) 5 base cap =
      Except.ok (p, backoffDelay base cap 0 + backoffDelay base cap 1) := by
  show fetchPageRetry (throttleTwiceResp p) base cap 6 0 0 = _
  simp [fetchPageRetry, throttleTwiceResp]

theorem fetchAllRetry_partial (maxRetries base cap fuel : Nat) :
    fetchAllRetry upstreamSecondPageThrottled 100 maxRetries base cap 0 (fuel + 2) =
      ([⟨List.replicate 100 0, true⟩], some FetchError.rateLimitExceeded) := by
  have hsecond :
      fetchPage (fun a => upstreamSecondPageThrottled 100 100 a) maxRetries base cap =
        Except.error FetchError.rateLimitExceeded :=
    fetchPageRetry_throttled _ base cap
      (fun a => by simp [upstreamSecondPageThrottled]) (maxRetries + 1) 0 0
  have hfirst :
      fetchPage (fun a => upstreamSecondPageThrottled 0 100 a) maxRetries base cap =
        Except.ok (⟨List.replicate 100 0, true⟩, 0) := by
    show fetchPageRetry _ base cap (maxRetries + 1) 0 0 = _
    simp [fetchPageRetry, upstreamSecondPageThrottled]
  simp [fetchAllRetry, hfirst, hsecond]

/-- Claim C6: on an upstream throttling signal the fetcher retries the
same page with exponentially doubling backoff capped at `cap`, at most
`maxRetries` times; a page throttled on every attempt fails with
RateLimitExceeded; in the 429-twice-then-200 scenario the page is
returned after two retries with total backoff equal to the sum of the
first two configured delays; and when a later page exhausts its retries,
the pages already fetched are returned alongside the error. -/
theorem fetchAllRetry_rateLimit :
    (∀ base cap a, backoffDelay base cap a ≤ cap ∧
      backoffDelay base cap (a + 1) = min (2 * (base * 2 ^ a)) cap) ∧
    (∀ (resp : Nat → UpstreamResp) (maxRetries base cap : Nat),
      (∀ a, resp a = UpstreamResp.throttled) →
      fetchPage resp maxRetries base cap = Except.error FetchError.rateLimitExceeded) ∧
    (∀ (p : Page) (base cap : Nat),
      fetchPage (throttleTwiceResp p) 5 base cap =
        Except.ok (p, backoffDelay base cap 0 + backoffDelay base cap 1)) ∧
    (∀ (maxRetries base cap fuel : Nat),
      fetchAllRetry upstreamSecondPageThrottled 100 maxRetries base cap 0 (fuel + 2) =
        ([⟨List.replicate 100 0, true⟩], some FetchError.rateLimitExceeded)) := by
  refine ⟨?_, ?_, fetchPage_throttleTwice, fetchAllRetry_partial⟩
  · intro base cap a
    constructor
    · exact Nat.min_le_right _ _
    · simp only [backoffDelay, pow_succ]
      ring_nf
  · intro resp maxRetries base cap h
    exact fetchPageRetry_throttled resp base cap h (maxRetries + 1) 0 0

theorem fetchAllRetry_rateLimit_witness :
    fetchPage (fun _ => UpstreamResp.throttled) 3 10 100 =
      Except.error FetchError.rateLimitExceeded :=
  fetchAllRetry_rateLimit.2.1 (fun _ => UpstreamResp.throttled) 3 10 100 (fun _ => rfl)

/- ===== Claim C3: upsert and sync lemmas ===== -/

theorem EntityTable.ext_fields (s t : EntityTable) (hr : s.rows = t.rows)
    (hc : s.rowCount = t.rowCount) (hn : s.nextId = t.nextId) : s = t := by
  cases s
  cases t
  simp_all

theorem upsert_rows_other (t : EntityTable) (it : UpstreamItem) (k : String)
    (h : k ≠ it.key) : (upsert t it).rows k = t.rows k := by
  cases ht : t.rows it.key with
  | none => simp [upsert, ht, h]
  | some e => simp [upsert, ht, h]

theorem upsert_rows_self (t : EntityTable) (it : UpstreamItem) :
    ∃ i, (upsert t it).rows it.key = some ⟨i, it.fields⟩ := by
  cases ht : t.rows it.key with
  | none => exact ⟨t.nextId, by simp [upsert, ht]⟩
  | some e => exact ⟨e.internalId, by simp [upsert, ht]⟩

theorem upsert_rows_isSome (t : EntityTable) (it : UpstreamItem) (k : String)
    (h : (t.rows k).isSome = true) : ((upsert t it).rows k).isSome = true := by
  by_cases hk : k = it.key
  · subst hk
    obtain ⟨i, hi⟩ := upsert_rows_self t it
    simp [hi]
  · rw [upsert_rows_other t it k hk]
    exact h

theorem syncItems_rows_isSome (items : List UpstreamItem) :
    ∀ (t : EntityTable) (k : String), (t.rows k).isSome = true →
      ((syncItems t items).rows k).isSome = true := by
  induction items with
  | nil => intro t k h; simpa [syncItems] using h
  | cons a rest ih =>
    intro t k h
    show ((syncItems (upsert t a) rest).rows k).isSome = true
    exact ih _ _ (upsert_rows_isSome t a k h)

theorem syncItems_untouched (items : List UpstreamItem) :
    ∀ (t : EntityTable) (k : String), (∀ it ∈ items, it.key ≠ k) →
      (syncItems t items).rows k = t.rows k := by
  induction items with
  | nil => intro t k _; rfl
  | cons a rest ih =>
    intro t k h
    show (syncItems (upsert t a) rest).rows k = t.rows k
    rw [ih _ _ (fun it hit => h it (List.mem_cons_of_mem a hit))]
    exact upsert_rows_other t a k (fun hk => h a (List.mem_cons_self a rest) hk.symm)

/-- Two tables agree on row counts, next ids and internal ids everywhere,
and on full rows at every key not touched by the remaining items. -/
def tablesAligned (is : List UpstreamItem) (σ τ : EntityTable) : Prop :=
  σ.rowCount = τ.rowCount ∧ σ.nextId = τ.nextId ∧
  (∀ k, (σ.rows k).map EntityRow.internalId = (τ.rows k).map EntityRow.internalId) ∧
  (∀ k, (∀ it ∈ is, it.key ≠ k) → σ.rows k = τ.rows k)

theorem tablesAligned_step (it : UpstreamItem) (is : List UpstreamItem) (σ τ : EntityTable)
    (h : tablesAligned (it :: is) σ τ) : tablesAligned is (upsert σ it) (upsert τ it) := by
  obtain ⟨hc, hn, hid, heq⟩ := h
  have hkey := hid it.key
  cases hs : σ.rows it.key with
  | some es =>
    cases ht : τ.rows it.key with
    | some et =>
      have hide : es.internalId = et.internalId := by
        rw [hs, ht] at hkey
        simpa using hkey
      refine ⟨by simp [upsert, hs, ht, hc], by simp [upsert, hs, ht, hn], ?_, ?_⟩
      · intro k
        by_cases hk : k = it.key
        · subst hk
          simp [upsert, hs, ht, hide]
        · rw [upsert_rows_other σ it k hk, upsert_rows_other τ it k hk]
          exact hid k
      · intro k hk
        by_cases hkk : k = it.key
        · subst hkk
          simp [upsert, hs, ht, hide]
        · rw [upsert_rows_other σ it k hkk, upsert_rows_other τ it k hkk]
          apply heq k
          intro it2 hit2
          cases List.mem_cons.mp hit2 with
          | inl h2 => subst h2; exact fun hcon => hkk hcon.symm
          | inr h2 => exact hk it2 h2
    | none =>
      rw [hs, ht] at hkey
      simp at hkey
  | none =>
    cases ht : τ.rows it.key with
    | some et =>
      rw [hs, ht] at hkey
      simp at hkey
    | none =>
      refine ⟨by simp [upsert, hs, ht, hc], by simp [upsert, hs, ht, hn], ?_, ?_⟩
      · intro k
        by_cases hk : k = it.key
        · subst hk
          simp [upsert, hs, ht, hn]
        · rw [upsert_rows_other σ it k hk, upsert_rows_other τ it k hk]
          exact hid k
      · intro k hk
        by_cases hkk : k = it.key
        · subst hkk
          simp [upsert, hs, ht, hn]
        · rw [upsert_rows_other σ it k hkk, upsert_rows_other τ it k hkk]
          apply heq k
          intro it2 hit2
          cases List.mem_cons.mp hit2 with
          | inl h2 => subst h2; exact fun hcon => hkk hcon.symm
          | inr h2 => exact hk it2 h2

theorem tablesAligned_sync : ∀ (is : List UpstreamItem) (σ τ : EntityTable),
    tablesAligned is σ τ → syncItems σ is = syncItems τ is := by
  intro is
  induction is with
  | nil =>
    intro σ τ h
    obtain ⟨hc, hn, _, heq⟩ := h
    show σ = τ
    have hrows : σ.rows = τ.rows :=
      funext fun k => heq k (fun it hit => absurd hit (List.not_mem_nil it))
    exact EntityTable.ext_fields σ τ hrows hc hn
  | cons it rest ih =>
    intro σ τ h
    show syncItems (upsert σ it) rest = syncItems (upsert τ it) rest
    exact ih _ _ (tablesAligned_step it rest σ τ h)

theorem upsert_replace (τ : EntityTable) (it : UpstreamItem) (e : EntityRow)
    (h : τ.rows it.key = some e) :
    (upsert τ it).rowCount = τ.rowCount ∧ (upsert τ it).nextId = τ.nextId ∧
    (upsert τ it).rows it.key = some ⟨e.internalId, it.fields⟩ := by
  refine ⟨?_, ?_, ?_⟩ <;> simp [upsert, h]

theorem syncItems_idem : ∀ (items : List UpstreamItem) (t : EntityTable),
    syncItems (syncItems t items) items = syncItems t items := by
  intro items
  induction items with
  | nil => intro t; rfl
  | cons it rest ih =>
    intro t
    show syncItems (upsert (syncItems (upsert t it) rest) it) rest =
      syncItems (upsert t it) rest
    have hpres : ((syncItems (upsert t it) rest).rows it.key).isSome = true := by
      apply syncItems_rows_isSome
      obtain ⟨i, hi⟩ := upsert_rows_self t it
      simp [hi]
    obtain ⟨e, he⟩ := Option.isSome_iff_exists.mp hpres
    obtain ⟨hrc, hni, hrk⟩ := upsert_replace _ it e he
    have key1 : syncItems (upsert (syncItems (upsert t it) rest) it) rest =
        syncItems (syncItems (upsert t it) rest) rest := by
      apply tablesAligned_sync
      refine ⟨hrc, hni, ?_, ?_⟩
      · intro k
        by_cases hk : k = it.key
        · subst hk
          rw [hrk, he]
          simp
        · rw [upsert_rows_other _ it k hk]
      · intro k hk
        by_cases hkk : k = it.key
        · subst hkk
          have huntouched : (syncItems (upsert t it) rest).rows it.key =
              (upsert t it).rows it.key :=
            syncItems_untouched rest _ _ (fun it2 h2 => hk it2 h2)
          obtain ⟨i0, hi0⟩ := upsert_rows_self t it
          have he2 : e = ⟨i0, it.fields⟩ := by
            rw [huntouched, hi0] at he
            exact (Option.some.inj he).symm
          rw [hrk, he, he2]
        · exact upsert_rows_other _ it k hkk
    rw [key1, ih]

/-- Claim C3: running syncLeague twice with unchanged upstream data is
idempotent: the second run produces no net change to the stored tables
(row contents, row counts and internal id counters all unchanged),
because every item is upserted by its upstream natural key. -/
theorem syncLeague_idempotent (s : LeagueStore) (d : LeagueData) :
    syncLeague (syncLeague s d) d = syncLeague s d := by
  show (⟨syncItems (syncItems s.teams d.teams) d.teams,
    syncItems (syncItems s.players d.players) d.players,
    syncItems (syncItems s.draftPicks d.picks) d.picks⟩ : LeagueStore) =
    ⟨syncItems s.teams d.teams, syncItems s.players d.players,
      syncItems s.draftPicks d.picks⟩
  rw [syncItems_idem, syncItems_idem, syncItems_idem]

/- ===== Claim C7 ===== -/

/-- Claim C7: entity types are synced independently: syncLeague's stored
table and reported outcome for each entity type are exactly what syncing
that type alone produces, regardless of the other types' fetch outcomes;
a failed fetch leaves that type's table untouched and reports the error,
a successful fetch upserts the items and reports their count, so a
partially completed sync is always reported rather than discarded. -/
theorem syncLeague_independent (s : LeagueStore) (ft fp fd : FetchOutcome) :
    (syncLeagueR s ft fp fd =
      (⟨(syncOne s.teams ft).1, (syncOne s.players fp).1, (syncOne s.draftPicks fd).1⟩,
        ⟨(syncOne s.teams ft).2, (syncOne s.players fp).2, (syncOne s.draftPicks fd).2⟩)) ∧
    (∀ e, syncOne s.players (Except.error e) = (s.players, Except.error e)) ∧
    (∀ items, syncOne s.players (Except.ok items) =
      (syncItems s.players items, Except.ok items.length)) ∧
    (∀ e, (syncLeagueR s ft (Except.error e) fd).2 =
      ⟨(syncOne s.teams ft).2, Except.error e, (syncOne s.draftPicks fd).2⟩) := by
  exact ⟨rfl, fun e => rfl, fun items => rfl, fun e => rfl⟩
